import Mathlib

/-!
Verification of the bundler in `src/fullCodeTxt.py`
(function `extract_and_combine_files`).

The filesystem is modelled as a map from resolved paths to a `FileState`
describing what happens when the Python code probes and reads that path.
The observable effects of one run — the name of the output file, the text
written to it, and the line printed on stdout — are gathered in `RunResult`.
-/

/-- State of a path as observed by the Python code: `absent` means
`os.path.exists` is `False`; `utf8 content` means the read on lines 12-14
succeeds and yields `content`; `badEncoding` means the read raises
`UnicodeDecodeError` (line 15); `readError msg` means the read raises some
other exception whose `str(e)` is `msg` (line 17). -/
inductive FileState where
  | absent : FileState
  | utf8 : String → FileState
  | badEncoding : FileState
  | readError : String → FileState
deriving DecidableEq, Repr

/-- Result of `os.path.exists` on a path in the given state. -/
def FileState.pathExists : FileState → Bool
  | FileState.absent => false
  | _ => true

/-- A filesystem: every resolved path is in some `FileState`. -/
abbrev FileMap := String → FileState

/-- Boolean test that `p` is a prefix of `s`, on the character lists. -/
def strStarts (s p : String) : Bool :=
  p.data.isPrefixOf s.data

/-- Boolean test that `p` is a suffix of `s`, on the character lists. -/
def strEnds (s p : String) : Bool :=
  p.data.isSuffixOf s.data

/-- `os.path.join(a, b)` with POSIX separators: an absolute second component
replaces the first; otherwise one separator is inserted between the parts
unless the first part is empty or already ends in a separator. -/
def osPathJoin (a b : String) : String :=
  if strStarts b "/" then b
  else if a = "" then b
  else if strEnds a "/" then a ++ b
  else a ++ "/" ++ b

/-- Characters after the last separator: the accumulator gathers the current
component in reverse and is reset whenever a separator is met. -/
def basenameChars : List Char → List Char → List Char
  | acc, [] => acc.reverse
  | _, '/' :: cs => basenameChars [] cs
  | acc, c :: cs => basenameChars (c :: acc) cs

/-- `os.path.basename(p)` with POSIX separators: the component after the
last separator. -/
def osPathBasename (p : String) : String :=
  String.mk (basenameChars [] p.data)

/-- Text produced by the `try`/`except` of lines 11-18 for a path that
exists: the file content on success, otherwise the matching error line. -/
def readOrError (fs : FileMap) (full_path file_name : String) : String :=
  match fs full_path with
  | FileState.utf8 content => content
  | FileState.badEncoding =>
      "Error: Unable to read " ++ full_path ++ " due to encoding issues.\n"
  | FileState.readError e =>
      "Error: An unexpected error occurred while reading " ++ file_name
        ++ ": " ++ e ++ "\n"
  | FileState.absent => ""

/-- Text one iteration of the loop (lines 6-22) writes for `file_path`:
header, body and footer when the resolved path exists, otherwise just the
not-found line — the header of line 9 is inside the `if` branch, so a
missing path gets neither header nor footer. -/
def processFile (fs : FileMap) (project_folder file_path : String) : String :=
  let full_path := osPathJoin project_folder file_path
  if (fs full_path).pathExists then
    let file_name := osPathBasename full_path
    file_name ++ "<\n\n" ++ readOrError fs full_path file_name
      ++ "\n\nEND OF " ++ file_name ++ ">\n\n"
  else
    "Error: File not found - " ++ full_path ++ "\n\n"

/-- The loop of lines 5-22: the per-path writes, concatenated in list order. -/
def writeAll (fs : FileMap) (project_folder : String) : List String → String
  | [] => ""
  | p :: ps => processFile fs project_folder p ++ writeAll fs project_folder ps

/-- Observable result of one run: the name of the file opened for writing,
the full text written to it, and the completion line printed on line 24. -/
structure RunResult where
  outputFile : String
  content : String
  printed : String
deriving DecidableEq, Repr

/-- `extract_and_combine_files(project_folder, file_paths, output_file)`
with the default `output_file='full_code.txt'` of line 3. -/
def extract_and_combine_files (fs : FileMap) (project_folder : String)
    (file_paths : List String) (output_file : String := "full_code.txt") :
    RunResult :=
  { outputFile := output_file
    content := writeAll fs project_folder file_paths
    printed := "File extraction complete. Output saved to " ++ output_file }

/-- Content of the output file on disk after a run: `open(output_file, 'w')`
on line 4 truncates, so the previous content is discarded and the file holds
exactly what the run wrote. -/
def fileAfterRun (previousContent : String) (fs : FileMap)
    (project_folder : String) (file_paths : List String)
    (output_file : String := "full_code.txt") : String :=
  (extract_and_combine_files fs project_folder file_paths output_file).content

/-- Concatenation of a list of strings, in order. -/
def concatAll : List String → String
  | [] => ""
  | s :: ss => s ++ concatAll ss

/-- Number of positions of `s` at which `pat` occurs as a substring. -/
def countOccs (pat : List Char) : List Char → Nat
  | [] => 0
  | c :: rest => (if pat.isPrefixOf (c :: rest) then 1 else 0) + countOccs pat rest

/-- Number of positions of `s` at which `pat` occurs. -/
def occurrences (s pat : String) : Nat :=
  countOccs pat.data s.data

/-- Filesystem with a single UTF-8 file `/proj/a.txt` containing `hello`. -/
def fsHello : FileMap :=
  fun p => if p = "/proj/a.txt" then FileState.utf8 "hello" else FileState.absent

/-- Empty filesystem: every path is absent. -/
def fsEmpty : FileMap :=
  fun _ => FileState.absent

/-- Filesystem where `/proj/bin.dat` exists but is not valid UTF-8. -/
def fsBad : FileMap :=
  fun p => if p = "/proj/bin.dat" then FileState.badEncoding else FileState.absent

/-- Filesystem where reading `/proj/locked.txt` raises an exception with
message `Permission denied`. -/
def fsLocked : FileMap :=
  fun p =>
    if p = "/proj/locked.txt" then FileState.readError "Permission denied"
    else FileState.absent

theorem writeAll_eq_concat (fs : FileMap) (base : String) (paths : List String) :
    writeAll fs base paths = concatAll (paths.map (processFile fs base)) := by
  induction paths with
  | nil => rfl
  | cons p ps ih => simp [writeAll, concatAll, ih]

theorem processFile_ne_empty (fs : FileMap) (base p : String) :
    processFile fs base p ≠ "" := by
  simp only [processFile]
  split
  · intro h
    have h2 := congrArg String.data h
    simp [String.data_append] at h2
  · intro h
    have h2 := congrArg String.data h
    simp [String.data_append] at h2

/-- C1, as stated, is false: for the scenario
relativePaths=["missing.txt"] under base directory /proj with the file
absent, the entire output is NOT
`missing.txt<\n\nError: File not found - /proj/missing.txt\n\n` —
the code writes the header of line 9 only inside the exists-branch, so a
missing path gets no header line. -/
theorem missing_file_header_refuted :
    (extract_and_combine_files fsEmpty "/proj" ["missing.txt"]).content ≠
      "missing.txt<\n\nError: File not found - /proj/missing.txt\n\n" := by
  decide

/-- C1 (amended): for every relative path that does not exist under the base
directory, the bundler writes only the line
`Error: File not found - {resolvedPath}\n\n` — no header line and no
`END OF` footer. -/
theorem missing_file_block (fs : FileMap) (base rel : String)
    (h : fs (osPathJoin base rel) = FileState.absent) :
    processFile fs base rel =
      "Error: File not found - " ++ osPathJoin base rel ++ "\n\n" := by
  simp [processFile, h, FileState.pathExists]

/-- C1 witness: the amended scenario — for relativePaths=["missing.txt"]
under /proj with the file absent, the entire output equals
`Error: File not found - /proj/missing.txt\n\n`. -/
theorem missing_file_block_witness :
    fsEmpty (osPathJoin "/proj" "missing.txt") = FileState.absent ∧
    (extract_and_combine_files fsEmpty "/proj" ["missing.txt"]).content =
      "Error: File not found - /proj/missing.txt\n\n" := by
  refine ⟨by decide, ?_⟩
  have h := missing_file_block fsEmpty "/proj" "missing.txt" (by decide)
  show processFile fsEmpty "/proj" "missing.txt" ++ writeAll fsEmpty "/proj" [] = _
  rw [h]
  decide

/-- C2, as stated, is false: with one input path `missing.txt` that does not
exist, the output contains zero occurrences of the header line
`missing.txt<\n\n`, not exactly one per input path. -/
theorem header_per_path_refuted :
    ¬ occurrences (extract_and_combine_files fsEmpty "/base" ["missing.txt"]).content
        "missing.txt<\n\n"
      = (["missing.txt"] : List String).length := by
  decide

/-- C2 (amended): for every non-empty list of relative paths, the output is
the concatenation, in input order, of exactly one block per input path, and
a block begins with the header line `{fileName}<\n\n` when its path exists
(a missing path produces only the not-found line, with no header). -/
theorem blocks_in_order (fs : FileMap) (base : String) (paths : List String)
    (hne : paths ≠ []) :
    (extract_and_combine_files fs base paths).content
        = concatAll (paths.map (processFile fs base)) ∧
    ∀ p ∈ paths, (fs (osPathJoin base p)).pathExists = true →
      ∃ rest, processFile fs base p
          = osPathBasename (osPathJoin base p) ++ "<\n\n" ++ rest := by
  refine ⟨writeAll_eq_concat fs base paths, ?_⟩
  intro p _ hex
  refine ⟨readOrError fs (osPathJoin base p) (osPathBasename (osPathJoin base p))
    ++ "\n\nEND OF " ++ osPathBasename (osPathJoin base p) ++ ">\n\n", ?_⟩
  simp [processFile, hex, String.append_assoc]

/-- C2 witness: the amended statement at the concrete run over
`["a.txt", "missing.txt"]` under `/proj`, where only `a.txt` exists. -/
theorem blocks_in_order_witness :
    (["a.txt", "missing.txt"] : List String) ≠ [] ∧
    ((extract_and_combine_files fsHello "/proj" ["a.txt", "missing.txt"]).content
        = concatAll ((["a.txt", "missing.txt"] : List String).map (processFile fsHello "/proj")) ∧
      ∀ p ∈ (["a.txt", "missing.txt"] : List String),
        (fsHello (osPathJoin "/proj" p)).pathExists = true →
        ∃ rest, processFile fsHello "/proj" p
            = osPathBasename (osPathJoin "/proj" p) ++ "<\n\n" ++ rest) :=
  ⟨by decide, blocks_in_order fsHello "/proj" ["a.txt", "missing.txt"] (by decide)⟩

/-- C3: for every path that exists and decodes as UTF-8 text, the text
between that entry's header and footer is the file content verbatim — no
transformation, no escaping. -/
theorem utf8_block (fs : FileMap) (base rel content : String)
    (h : fs (osPathJoin base rel) = FileState.utf8 content) :
    processFile fs base rel =
      osPathBasename (osPathJoin base rel) ++ "<\n\n" ++ content
        ++ "\n\nEND OF " ++ osPathBasename (osPathJoin base rel) ++ ">\n\n" := by
  simp [processFile, readOrError, h, FileState.pathExists]

/-- C3 witness: the scenario — baseDirectory=/proj, relativePaths=["a.txt"],
`/proj/a.txt` containing `hello` gives the entry
`a.txt<\n\nhello\n\nEND OF a.txt>\n\n` as the entire output. -/
theorem utf8_block_witness :
    fsHello (osPathJoin "/proj" "a.txt") = FileState.utf8 "hello" ∧
    (extract_and_combine_files fsHello "/proj" ["a.txt"]).content =
      "a.txt<\n\nhello\n\nEND OF a.txt>\n\n" := by
  refine ⟨by decide, ?_⟩
  have h := utf8_block fsHello "/proj" "a.txt" "hello" (by decide)
  show processFile fsHello "/proj" "a.txt" ++ writeAll fsHello "/proj" [] = _
  rw [h]
  decide

/-- C4: for every path that exists but fails to decode as UTF-8, the bundler
writes `Error: Unable to read {resolvedPath} due to encoding issues.\n` in
place of the content, and the `\n\nEND OF {fileName}>\n\n` footer is still
written after it. -/
theorem encoding_error_block (fs : FileMap) (base rel : String)
    (h : fs (osPathJoin base rel) = FileState.badEncoding) :
    processFile fs base rel =
      osPathBasename (osPathJoin base rel) ++ "<\n\n"
        ++ ("Error: Unable to read " ++ osPathJoin base rel
              ++ " due to encoding issues.\n")
        ++ "\n\nEND OF " ++ osPathBasename (osPathJoin base rel) ++ ">\n\n" := by
  simp [processFile, readOrError, h, FileState.pathExists]

/-- C4 witness: the concrete run over `["bin.dat"]` under `/proj`, where
`/proj/bin.dat` exists but is not valid UTF-8. -/
theorem encoding_error_block_witness :
    fsBad (osPathJoin "/proj" "bin.dat") = FileState.badEncoding ∧
    (extract_and_combine_files fsBad "/proj" ["bin.dat"]).content =
      "bin.dat<\n\nError: Unable to read /proj/bin.dat due to encoding issues.\n\n\nEND OF bin.dat>\n\n" := by
  refine ⟨by decide, ?_⟩
  have h := encoding_error_block fsBad "/proj" "bin.dat" (by decide)
  show processFile fsBad "/proj" "bin.dat" ++ writeAll fsBad "/proj" [] = _
  rw [h]
  decide

/-- C5: for every path that exists but whose read fails for a reason other
than a decoding failure, the bundler writes
`Error: An unexpected error occurred while reading {fileName}: {errorMessage}\n`
in place of the content, followed by the `\n\nEND OF {fileName}>\n\n`
footer. -/
theorem read_error_block (fs : FileMap) (base rel e : String)
    (h : fs (osPathJoin base rel) = FileState.readError e) :
    processFile fs base rel =
      osPathBasename (osPathJoin base rel) ++ "<\n\n"
        ++ ("Error: An unexpected error occurred while reading "
              ++ osPathBasename (osPathJoin base rel) ++ ": " ++ e ++ "\n")
        ++ "\n\nEND OF " ++ osPathBasename (osPathJoin base rel) ++ ">\n\n" := by
  simp [processFile, readOrError, h, FileState.pathExists]

/-- C5 witness: the concrete run over `["locked.txt"]` under `/proj`, where
reading `/proj/locked.txt` raises `Permission denied`. -/
theorem read_error_block_witness :
    fsLocked (osPathJoin "/proj" "locked.txt") = FileState.readError "Permission denied" ∧
    (extract_and_combine_files fsLocked "/proj" ["locked.txt"]).content =
      "locked.txt<\n\nError: An unexpected error occurred while reading locked.txt: Permission denied\n\n\nEND OF locked.txt>\n\n" := by
  refine ⟨by decide, ?_⟩
  have h := read_error_block fsLocked "/proj" "locked.txt" "Permission denied" (by decide)
  show processFile fsLocked "/proj" "locked.txt" ++ writeAll fsLocked "/proj" [] = _
  rw [h]
  decide

/-- C6: no per-file failure is fatal — for every filesystem, base directory
and input list, the run completes and the output is the concatenation of one
non-empty block per requested path. -/
theorem always_completes (fs : FileMap) (base : String) (paths : List String) :
    ∃ blocks : List String, blocks.length = paths.length ∧
      (extract_and_combine_files fs base paths).content = concatAll blocks ∧
      ∀ b ∈ blocks, b ≠ "" := by
  refine ⟨paths.map (processFile fs base), List.length_map paths _, writeAll_eq_concat fs base paths, ?_⟩
  intro b hb
  obtain ⟨p, _, rfl⟩ := List.mem_map.mp hb
  exact processFile_ne_empty fs base p

/-- C7: the run result is a deterministic function of the arguments and the
filesystem state — two runs with identical arguments over an unchanged
filesystem produce byte-identical outputs. -/
theorem run_deterministic (fs₁ fs₂ : FileMap) (b₁ b₂ : String)
    (ps₁ ps₂ : List String) (o₁ o₂ : String)
    (hfs : fs₁ = fs₂) (hb : b₁ = b₂) (hp : ps₁ = ps₂) (ho : o₁ = o₂) :
    extract_and_combine_files fs₁ b₁ ps₁ o₁ = extract_and_combine_files fs₂ b₂ ps₂ o₂ := by
  rw [hfs, hb, hp, ho]

/-- C7 witness: two runs with the same concrete arguments agree. -/
theorem run_deterministic_witness :
    extract_and_combine_files fsHello "/proj" ["a.txt"] "full_code.txt"
      = extract_and_combine_files fsHello "/proj" ["a.txt"] "full_code.txt" :=
  run_deterministic fsHello fsHello "/proj" "/proj" ["a.txt"] ["a.txt"]
    "full_code.txt" "full_code.txt" rfl rfl rfl rfl

/-- C8: when no output path argument is given, the run writes to
`full_code.txt` and prints exactly one completion message stating that
file name. -/
theorem default_output_and_message (fs : FileMap) (base : String) (paths : List String) :
    (extract_and_combine_files fs base paths).outputFile = "full_code.txt" ∧
    (extract_and_combine_files fs base paths).printed
      = "File extraction complete. Output saved to full_code.txt" :=
  ⟨rfl, rfl⟩

/-- C9: for the empty path list, the output file is still opened for writing
and truncated — whatever its previous content, it ends up empty — nothing is
written to it, and the completion message is still printed. -/
theorem empty_list_run (fs : FileMap) (base previous : String) :
    fileAfterRun previous fs base [] = "" ∧
    (extract_and_combine_files fs base []).printed
      = "File extraction complete. Output saved to full_code.txt" :=
  ⟨rfl, rfl⟩

/-- C10: the output text is a concatenation homomorphism over the path
list — for a fixed filesystem and base directory, the output for `xs ++ ys`
is the output for `xs` followed by the output for `ys`. -/
theorem content_append (fs : FileMap) (base output : String) (xs ys : List String) :
    (extract_and_combine_files fs base (xs ++ ys) output).content
      = (extract_and_combine_files fs base xs output).content
        ++ (extract_and_combine_files fs base ys output).content := by
  show writeAll fs base (xs ++ ys) = writeAll fs base xs ++ writeAll fs base ys
  induction xs with
  | nil => simp [writeAll]
  | cons p ps ih => simp [writeAll, ih, String.append_assoc]
